import Mathlib

/-!
# AutoPilot agent core — shallow embedding and verification

A shallow embedding of the AutoPilot frontend agent core:

* `src/core/tool-registry.ts` — tool registration and `dispatchToolCall`;
* `src/core/agent-core.ts` — the `runAgent` tool-use loop (`MAX_TOOL_ROUNDS = 10`);
* `ai-client` — `createAIClient` provider factory and the per-provider
  message translations (`createAnthropicClient`, `createOpenAIClient`).

JavaScript `unknown` values that flow through tool inputs, tool results and
serialized messages are modelled by the JSON-like type `JValue`; the JS
builtin `JSON.stringify` is modelled by `JValue.stringify` (compact form,
one-argument call) and `JValue.stringify2` (the `JSON.stringify(v, null, 2)`
pretty form used by dry-run mode).  Asynchronous tool execution that may
throw or reject is modelled by `Except String`: `Except.error msg` stands
for a thrown error whose message is `msg`.  The AI client `chat` method is
an external collaborator (network call): it is modelled as an oracle
function from the current message history to a canonical response.
-/

namespace AutoPilot

/-- JSON-like values: the model of TypeScript `unknown` payloads
(tool inputs, structured tool result content). -/
inductive JValue where
  | null : JValue
  | bool : Bool → JValue
  | num : Int → JValue
  | str : String → JValue
  | arr : List JValue → JValue
  | obj : List (String × JValue) → JValue

mutual

/-- Model of the JS builtin `JSON.stringify(v)` (compact form, no spaces).
String escaping is not modelled: member strings are emitted verbatim
between quotes. -/
def JValue.stringify : JValue → String
  | .null => "null"
  | .bool b => cond b "true" "false"
  | .num n => toString n
  | .str s => "\"" ++ s ++ "\""
  | .arr vs => "[" ++ JValue.stringifyList vs ++ "]"
  | .obj fs => "\x7b" ++ JValue.stringifyFields fs ++ "\x7d"

/-- Comma-joined compact serialization of array elements. -/
def JValue.stringifyList : List JValue → String
  | [] => ""
  | [v] => JValue.stringify v
  | v :: v2 :: vs => JValue.stringify v ++ "," ++ JValue.stringifyList (v2 :: vs)

/-- Comma-joined compact serialization of object members. -/
def JValue.stringifyFields : List (String × JValue) → String
  | [] => ""
  | [(k, v)] => "\"" ++ k ++ "\":" ++ JValue.stringify v
  | (k, v) :: f2 :: fs =>
      "\"" ++ k ++ "\":" ++ JValue.stringify v ++ "," ++ JValue.stringifyFields (f2 :: fs)

end

/-- Two-space indentation at nesting depth `n`, as produced by
`JSON.stringify(v, null, 2)`. -/
def indentStr (n : Nat) : String := String.join (List.replicate n "  ")

mutual

/-- Model of `JSON.stringify(v, null, 2)` at nesting depth `d`. -/
def JValue.stringify2At : Nat → JValue → String
  | _, .null => "null"
  | _, .bool b => cond b "true" "false"
  | _, .num n => toString n
  | _, .str s => "\"" ++ s ++ "\""
  | _, .arr [] => "[]"
  | d, .arr (v :: vs) =>
      "[\n" ++ JValue.stringify2List (d + 1) (v :: vs) ++ "\n" ++ indentStr d ++ "]"
  | _, .obj [] => "\x7b\x7d"
  | d, .obj (f :: fs) =>
      "\x7b\n" ++ JValue.stringify2Fields (d + 1) (f :: fs) ++ "\n" ++ indentStr d ++ "\x7d"

/-- Pretty-printed array elements, one per line, comma separated. -/
def JValue.stringify2List : Nat → List JValue → String
  | _, [] => ""
  | d, [v] => indentStr d ++ JValue.stringify2At d v
  | d, v :: v2 :: vs =>
      indentStr d ++ JValue.stringify2At d v ++ ",\n" ++ JValue.stringify2List d (v2 :: vs)

/-- Pretty-printed object members, one per line, comma separated. -/
def JValue.stringify2Fields : Nat → List (String × JValue) → String
  | _, [] => ""
  | d, [(k, v)] => indentStr d ++ "\"" ++ k ++ "\": " ++ JValue.stringify2At d v
  | d, (k, v) :: f2 :: fs =>
      indentStr d ++ "\"" ++ k ++ "\": " ++ JValue.stringify2At d v ++ ",\n" ++
        JValue.stringify2Fields d (f2 :: fs)

end

/-- Model of `JSON.stringify(v, null, 2)` (used by dry-run mode). -/
def JValue.stringify2 (v : JValue) : String := JValue.stringify2At 0 v

-- ─── tool-registry.ts ───

/-- Embedding of `ToolCallResult.content`: `string | Record<string, unknown>`. -/
inductive ToolContent where
  | str : String → ToolContent
  | obj : List (String × JValue) → ToolContent

/-- Embedding of `ToolCallResult` from `tool-registry.ts`: every tool `execute` returns
this shape; `details` is an optional record of diagnostic metadata. -/
structure ToolCallResult where
  content : ToolContent
  details : Option (List (String × JValue)) := none

/-- Embedding of `ToolDefinition` from `tool-registry.ts`.  `execute` is
`(params) => Promise<ToolCallResult>`; a rejected promise / thrown error
with message `msg` is modelled as `Except.error msg`. -/
structure ToolDefinition where
  name : String
  description : String
  schema : JValue
  execute : JValue → Except String ToolCallResult

/-- The registry `Map` keyed by tool name, modelled as a list in
registration order; `Map.get` is first-match lookup by name. -/
def toolsGet (reg : List ToolDefinition) (name : String) : Option ToolDefinition :=
  reg.find? (fun t => t.name == name)

/-- Embedding of `registerTool`: `tools.set(tool.name, tool)` — overwrite in place if the
name is present, otherwise append (JS `Map` keeps insertion order). -/
def registerTool (reg : List ToolDefinition) (tool : ToolDefinition) : List ToolDefinition :=
  if reg.any (fun t => t.name == tool.name) then
    reg.map (fun t => if t.name == tool.name then tool else t)
  else
    reg ++ [tool]

/-- Embedding of `getToolDefinitions`: `Array.from(tools.values())` in registration order. -/
def getToolDefinitions (reg : List ToolDefinition) : List ToolDefinition := reg

/-- Embedding of `(input ?? {})`: JS nullish coalescing applied to the raw tool-call
input before it is handed to `execute`. -/
def coalesceInput : JValue → JValue
  | .null => .obj []
  | v => v

/-- Embedding of `dispatchToolCall(name, input)` from `tool-registry.ts`:
unknown names and thrown execution errors are both converted to error-shaped
`ToolCallResult`s; the function is total (never throws). -/
def dispatchToolCall (reg : List ToolDefinition) (name : String) (input : JValue) :
    ToolCallResult :=
  match toolsGet reg name with
  | none =>
      { content := .str ("Unknown tool: " ++ name),
        details := some [("error", .bool true), ("toolName", .str name)] }
  | some tool =>
      match tool.execute (coalesceInput input) with
      | .ok r => r
      | .error msg =>
          { content := .str ("Tool \"" ++ name ++ "\" failed: " ++ msg),
            details := some [("error", .bool true), ("toolName", .str name),
                             ("message", .str msg)] }

/-- Reads the `error` field of a result `details` record
(`details.error` in JS). -/
def ToolCallResult.errorFlag (r : ToolCallResult) : Option JValue :=
  r.details.bind (fun d => (d.find? (fun f => f.1 == "error")).map (fun f => f.2))

/-- The serialized text of a result `content`
(`typeof content === "string" ? content : JSON.stringify(content)`). -/
def contentText : ToolContent → String
  | .str s => s
  | .obj r => JValue.stringify (.obj r)

/-- Holds when `a` occurs as a contiguous substring of `b`. -/
def occursIn (a b : String) : Prop := ∃ p q, b = p ++ a ++ q

theorem occursIn_refl_mid (p a q : String) : occursIn a (p ++ a ++ q) := ⟨p, q, rfl⟩

-- ─── theorems: dispatch error handling (C2, C3) ───

/-- C2: `dispatchToolCall` never raises — it is a total function into
`ToolCallResult` — and when the named tool `execute` throws or rejects
with message `msg`, the dispatch returns (rather than propagates) a Tool
Result whose content is the failure text `Tool "<name>" failed: <msg>`
(which contains the failure message) and whose `details.error` is `true`. -/
theorem dispatchToolCall_catches_execute_errors
    (reg : List ToolDefinition) (name : String) (input : JValue)
    (tool : ToolDefinition) (msg : String)
    (hfind : toolsGet reg name = some tool)
    (hexec : tool.execute (coalesceInput input) = .error msg) :
    dispatchToolCall reg name input =
      { content := .str ("Tool \"" ++ name ++ "\" failed: " ++ msg),
        details := some [("error", .bool true), ("toolName", .str name),
                         ("message", .str msg)] } ∧
    (dispatchToolCall reg name input).errorFlag = some (.bool true) ∧
    occursIn msg (contentText (dispatchToolCall reg name input).content) := by
  have hd : dispatchToolCall reg name input =
      { content := .str ("Tool \"" ++ name ++ "\" failed: " ++ msg),
        details := some [("error", .bool true), ("toolName", .str name),
                         ("message", .str msg)] } := by
    simp [dispatchToolCall, hfind, hexec]
  refine ⟨hd, ?_, ?_⟩
  · rw [hd]; rfl
  · rw [hd]
    exact ⟨"Tool \"" ++ name ++ "\" failed: ", "", by simp [contentText]⟩

/-- Witness for C2 at a concrete registry: a tool whose `execute` always
throws is dispatched without the error escaping, producing the error-shaped
result. -/
theorem dispatchToolCall_catches_execute_errors_witness :
    dispatchToolCall
        [{ name := "boom", description := "always fails", schema := .obj [],
           execute := fun _ => .error "kaboom" }] "boom" (.obj []) =
      { content := .str "Tool \"boom\" failed: kaboom",
        details := some [("error", .bool true), ("toolName", .str "boom"),
                         ("message", .str "kaboom")] } := by
  exact (dispatchToolCall_catches_execute_errors
    [{ name := "boom", description := "always fails", schema := .obj [],
       execute := fun _ => .error "kaboom" }] "boom" (.obj [])
    { name := "boom", description := "always fails", schema := .obj [],
      execute := fun _ => .error "kaboom" } "kaboom" rfl rfl).1

/-- C3: for every name absent from the registry and every input,
`dispatchToolCall` returns (rather than throws) the unknown-tool Tool
Result: `details.error` is `true` and the content string
`Unknown tool: <name>` identifies the unknown name. -/
theorem dispatchToolCall_unknown_tool
    (reg : List ToolDefinition) (name : String) (input : JValue)
    (habsent : toolsGet reg name = none) :
    dispatchToolCall reg name input =
      { content := .str ("Unknown tool: " ++ name),
        details := some [("error", .bool true), ("toolName", .str name)] } ∧
    (dispatchToolCall reg name input).errorFlag = some (.bool true) ∧
    occursIn name (contentText (dispatchToolCall reg name input).content) := by
  have hd : dispatchToolCall reg name input =
      { content := .str ("Unknown tool: " ++ name),
        details := some [("error", .bool true), ("toolName", .str name)] } := by
    simp [dispatchToolCall, habsent]
  refine ⟨hd, ?_, ?_⟩
  · rw [hd]; rfl
  · rw [hd]
    exact ⟨"Unknown tool: ", "", by simp [contentText]⟩

/-- Witness for C3: dispatching the unregistered name `bogus` against the
empty registry yields the unknown-tool result. -/
theorem dispatchToolCall_unknown_tool_witness :
    dispatchToolCall [] "bogus" (.obj []) =
      { content := .str "Unknown tool: bogus",
        details := some [("error", .bool true), ("toolName", .str "bogus")] } :=
  (dispatchToolCall_unknown_tool [] "bogus" (.obj []) rfl).1

-- ─── ai-client data model (canonical message shapes) ───

/-- Message roles: `"user" | "assistant" | "tool" | "system"`. -/
inductive Role where
  | user
  | assistant
  | tool
  | system
deriving DecidableEq

/-- One `{ toolCallId, result }` pair of a tool-role message. -/
structure ToolResultPair where
  toolCallId : String
  result : String

/-- Embedding of `AIMessage.content`: `string | Array<{toolCallId, result}>`. -/
inductive MessageContent where
  | str : String → MessageContent
  | results : List ToolResultPair → MessageContent

/-- Embedding of `AIToolCall`: one model-issued tool call `{ id, name, input }`. -/
structure AIToolCall where
  id : String
  name : String
  input : JValue

/-- Embedding of `AIMessage`: one canonical conversation message. -/
structure AIMessage where
  role : Role
  content : MessageContent
  toolCalls : Option (List AIToolCall) := none

/-- Embedding of the `usage` accounting of a chat response. -/
structure Usage where
  inputTokens : Nat
  outputTokens : Nat

/-- Embedding of `AIChatResponse`: the canonical response of one `client.chat` call. -/
structure AIChatResponse where
  text : Option String := none
  toolCalls : Option (List AIToolCall) := none
  usage : Option Usage := none

-- ─── agent-core.ts ───

/-- Embedding of `MAX_TOOL_ROUNDS` from `agent-core.ts`. -/
def MAX_TOOL_ROUNDS : Nat := 10

/-- One `{ name, input, result }` record of the run tool-call audit list. -/
structure AuditRecord where
  name : String
  input : JValue
  result : ToolCallResult

/-- Embedding of `AgentRunResult` from `agent-core.ts`. -/
structure AgentRunResult where
  reply : String
  toolCalls : List AuditRecord
  model : String
  tokensUsed : Option Nat := none

/-- Concatenation of a list of strings in order: the model of a JS
`for`-loop accumulating into a string with `+=`. -/
def strConcat : List String → String
  | [] => ""
  | s :: ss => s ++ strConcat ss

/-- The dry-run description block printed for one requested tool call:
name, id, and the 2-space-indented JSON of its parameters. -/
def dryRunBlock (tc : AIToolCall) : String :=
  "\n┌─ 工具: " ++ tc.name ++ "\n" ++
  "│  ID:   " ++ tc.id ++ "\n" ++
  "│  参数:\n" ++
  strConcat (((JValue.stringify2 tc.input).splitOn "\n").map
    (fun line => "│    " ++ line ++ "\n")) ++
  "└────────────────────\n"

/-- The full dry-run reply: the response text when truthy (a non-empty
string) followed by a blank line, then the header and one block per
requested tool call, in order. -/
def dryRunReply (text : Option String) (tcs : List AIToolCall) : String :=
  (match text with
   | some t => if t == "" then "" else t ++ "\n\n"
   | none => "") ++
  "🔧 AI 请求调用以下工具（dry-run 模式，未执行）：\n" ++
  strConcat (tcs.map dryRunBlock)

/-- What one execution of the `for (let round = ...)` loop body sequence in
`runAgent` produces, plus instrumentation: `chatCalls` counts the
`client.chat` invocations, `dispatched` lists every `(name, input)` handed
to `dispatchToolCall`, in invocation order. -/
structure LoopResult where
  finalReply : String
  messages : List AIMessage
  allToolCalls : List AuditRecord
  dispatched : List (String × JValue)
  chatCalls : Nat

/-- The tool-use loop of `runAgent` (`for (let round = 0; round <
MAX_TOOL_ROUNDS; round++)`), recursing on the number of rounds left.
`chat` is the external AI client `chat` method, modelled as an oracle
from the current message history (the system prompt and tool catalogue,
constant over the run, are elided) to a canonical response.  When the
rounds are exhausted the loop falls through with `finalReply` still
holding its initial value `""`. -/
def agentLoop (reg : List ToolDefinition) (chat : List AIMessage → AIChatResponse)
    (dryRun : Bool) :
    Nat → List AIMessage → List AuditRecord → List (String × JValue) → LoopResult
  | 0, messages, acc, disp =>
      { finalReply := "", messages := messages, allToolCalls := acc,
        dispatched := disp, chatCalls := 0 }
  | roundsLeft + 1, messages, acc, disp =>
      let response := chat messages
      match response.toolCalls with
      | none =>
          { finalReply := response.text.getD "", messages := messages,
            allToolCalls := acc, dispatched := disp, chatCalls := 1 }
      | some [] =>
          { finalReply := response.text.getD "", messages := messages,
            allToolCalls := acc, dispatched := disp, chatCalls := 1 }
      | some (tc0 :: tcrest) =>
          if dryRun then
            { finalReply := dryRunReply response.text (tc0 :: tcrest),
              messages := messages, allToolCalls := acc, dispatched := disp,
              chatCalls := 1 }
          else
            let tcs := tc0 :: tcrest
            let executed := tcs.map (fun tc => (tc, dispatchToolCall reg tc.name tc.input))
            let toolResults := executed.map (fun e =>
              { toolCallId := e.1.id, result := contentText e.2.content : ToolResultPair })
            let rest := agentLoop reg chat dryRun roundsLeft
              (messages ++
                [{ role := .assistant, content := .str (response.text.getD ""),
                   toolCalls := some tcs },
                 { role := .tool, content := .results toolResults }])
              (acc ++ executed.map (fun e =>
                { name := e.1.name, input := e.1.input, result := e.2 }))
              (disp ++ tcs.map (fun tc => (tc.name, tc.input)))
            { rest with chatCalls := rest.chatCalls + 1 }

/-- The run-level view of one `runAgent` invocation: its `AgentRunResult`,
the conversation it built, and the loop instrumentation. -/
structure RunOutcome where
  result : AgentRunResult
  messages : List AIMessage
  dispatched : List (String × JValue)
  chatCalls : Nat

/-- Embedding of `runAgent` from `agent-core.ts`: seed the conversation with the user
message, run the loop for at most `MAX_TOOL_ROUNDS` rounds, and return
`{ reply, toolCalls, model }` (no `tokensUsed` field is ever set). -/
def runAgent (reg : List ToolDefinition) (chat : List AIMessage → AIChatResponse)
    (message : String) (dryRun : Bool) (model : String) : RunOutcome :=
  let lr := agentLoop reg chat dryRun MAX_TOOL_ROUNDS
    [{ role := .user, content := .str message }] [] []
  { result := { reply := lr.finalReply, toolCalls := lr.allToolCalls,
                model := model, tokensUsed := none },
    messages := lr.messages, dispatched := lr.dispatched, chatCalls := lr.chatCalls }

-- ─── substring helper lemmas ───

theorem occursIn_trans {a b c : String} (h1 : occursIn a b) (h2 : occursIn b c) :
    occursIn a c := by
  obtain ⟨p, q, rfl⟩ := h1
  obtain ⟨u, v, rfl⟩ := h2
  exact ⟨u ++ p, q ++ v, by simp [String.append_assoc]⟩

theorem occursIn_strConcat_map {α : Type} (f : α → String) :
    ∀ (l : List α) (a : α), a ∈ l → occursIn (f a) (strConcat (l.map f))
  | b :: l, a, h => by
    rcases List.mem_cons.mp h with rfl | h2
    · exact ⟨"", strConcat (l.map f), by simp [strConcat, String.append_assoc]⟩
    · obtain ⟨p, q, hpq⟩ := occursIn_strConcat_map f l a h2
      exact ⟨f b ++ p, q, by simp [strConcat, hpq, String.append_assoc]⟩

-- ─── loop lemmas ───

/-- The loop makes at most `fuel` chat calls when given `fuel` rounds. -/
theorem agentLoop_chatCalls_le (reg : List ToolDefinition)
    (chat : List AIMessage → AIChatResponse) (dryRun : Bool) :
    ∀ (fuel : Nat) (messages : List AIMessage) (acc : List AuditRecord)
      (disp : List (String × JValue)),
      (agentLoop reg chat dryRun fuel messages acc disp).chatCalls ≤ fuel := by
  intro fuel
  induction fuel with
  | zero => intro messages acc disp; exact Nat.le_refl 0
  | succ n ih =>
    intro messages acc disp
    simp only [agentLoop]
    split
    · exact Nat.succ_le_succ (Nat.zero_le n)
    · exact Nat.succ_le_succ (Nat.zero_le n)
    · split
      · exact Nat.succ_le_succ (Nat.zero_le n)
      · exact Nat.succ_le_succ (ih _ _ _)

-- ─── theorems: termination bound (C4) and usage accounting (C10) ───

/-- C4: for every registry, every model-behavior (`chat` oracle), every user
message, dry-run flag and model id, `runAgent` invokes `client.chat` at most
`MAX_TOOL_ROUNDS = 10` times — the loop terminates after at most 10 rounds
regardless of how many tool calls the model requests per round. -/
theorem runAgent_at_most_ten_rounds (reg : List ToolDefinition)
    (chat : List AIMessage → AIChatResponse) (message : String)
    (dryRun : Bool) (model : String) :
    (runAgent reg chat message dryRun model).chatCalls ≤ MAX_TOOL_ROUNDS ∧
    MAX_TOOL_ROUNDS = 10 :=
  ⟨agentLoop_chatCalls_le reg chat dryRun MAX_TOOL_ROUNDS _ _ _, rfl⟩

/-- C10: the `AgentRunResult` returned by `runAgent` never carries a
`tokensUsed` value — the return statement of `runAgent` omits the field
(it is always `none`), even though the chat responses may carry `usage`
accounting. -/
theorem runAgent_tokensUsed_always_absent (reg : List ToolDefinition)
    (chat : List AIMessage → AIChatResponse) (message : String)
    (dryRun : Bool) (model : String) :
    (runAgent reg chat message dryRun model).result.tokensUsed = none := rfl

-- ─── theorem: round-limit exhaustion behavior (C1) ───

/-- A model behavior that requests a tool call on every round, with usage
accounting present: it never returns a tool-call-free response. -/
def roundLimitChat : List AIMessage → AIChatResponse := fun _ =>
  { text := some "still working",
    toolCalls := some [{ id := "id1", name := "exec", input := .obj [] }],
    usage := some { inputTokens := 5, outputTokens := 7 } }

/-- C1 (evaluation at the failing input): when the model returns tool calls
on every one of the 10 rounds, `runAgent` terminates normally after exactly
`MAX_TOOL_ROUNDS` chat calls, but its reply is the *empty string* `""` —
`finalReply` is never assigned when the loop exhausts its rounds — not a
sentinel "round limit exceeded" message (compare `demo/agent.js`, which
implements "the same logic" and returns the sentinel `（超过最大轮次限制）`
in this case). -/
theorem runAgent_round_limit_reply_is_empty :
    (runAgent [] roundLimitChat "do it" false "gpt-4o").chatCalls = MAX_TOOL_ROUNDS ∧
    (runAgent [] roundLimitChat "do it" false "gpt-4o").result.reply = "" ∧
    (runAgent [] roundLimitChat "do it" false "gpt-4o").result.reply ≠
      "（超过最大轮次限制）" :=
  ⟨rfl, rfl, by decide⟩

-- ─── theorem: audit trail and the file_read scenario (C7) ───

/-- The `allToolCalls` audit list is exactly the sequence of
`dispatchToolCall` invocations, in invocation order, each record carrying
the result of its own dispatch. -/
theorem agentLoop_audit_is_dispatch_trail (reg : List ToolDefinition)
    (chat : List AIMessage → AIChatResponse) (dryRun : Bool) :
    ∀ (fuel : Nat) (messages : List AIMessage) (acc : List AuditRecord)
      (disp : List (String × JValue)),
      acc = disp.map (fun nd =>
        { name := nd.1, input := nd.2,
          result := dispatchToolCall reg nd.1 nd.2 : AuditRecord }) →
      (agentLoop reg chat dryRun fuel messages acc disp).allToolCalls =
        (agentLoop reg chat dryRun fuel messages acc disp).dispatched.map (fun nd =>
          { name := nd.1, input := nd.2,
            result := dispatchToolCall reg nd.1 nd.2 : AuditRecord }) := by
  intro fuel
  induction fuel with
  | zero => intro messages acc disp h; exact h
  | succ n ih =>
    intro messages acc disp h
    simp only [agentLoop]
    split
    · exact h
    · exact h
    · split
      · exact h
      · apply ih
        simp [h, List.map_map, Function.comp]

/-- The scenario tool of spec §8: a registered `file_read` whose execution
returns the Tool Result `{ content: "contents" }`. -/
def fileReadStub : ToolDefinition :=
  { name := "file_read", description := "Read file contents", schema := .obj [],
    execute := fun _ => .ok { content := .str "contents" } }

/-- The scenario model behavior of spec §8: the first response (the message
history holds only the seeded user message) carries one `file_read` tool
call; every later response is `{ text: "done" }` with no tool calls. -/
def fileReadScenarioChat : List AIMessage → AIChatResponse := fun msgs =>
  if msgs.length == 1 then
    { toolCalls := some [{ id := "call_1", name := "file_read",
                           input := .obj [("filePath", .str "a.txt")] }] }
  else
    { text := some "done" }

/-- C7: in the spec §8 scenario — one `file_read` tool call, tool returns
`{content:"contents"}`, second response `{text:"done"}` — `runAgent`
returns reply `"done"` and an audit list with exactly the one record
`{name:"file_read", input:{filePath:"a.txt"}, result:{content:"contents"}}`;
and in general the audit list is exactly the sequence of dispatched calls
`(name, input)` in the order the model emitted them, each record carrying
the result of its own (strictly sequential) dispatch. -/
theorem runAgent_file_read_scenario_and_audit_order :
    ((runAgent [fileReadStub] fileReadScenarioChat "read it" false "m").result.reply =
        "done" ∧
      (runAgent [fileReadStub] fileReadScenarioChat "read it" false "m").result.toolCalls =
        [{ name := "file_read", input := .obj [("filePath", .str "a.txt")],
           result := { content := .str "contents" } }]) ∧
    ∀ (reg : List ToolDefinition) (chat : List AIMessage → AIChatResponse)
      (message : String) (dryRun : Bool) (model : String),
      (runAgent reg chat message dryRun model).result.toolCalls =
        (runAgent reg chat message dryRun model).dispatched.map (fun nd =>
          { name := nd.1, input := nd.2,
            result := dispatchToolCall reg nd.1 nd.2 : AuditRecord }) :=
  ⟨⟨rfl, rfl⟩, fun reg chat _ dryRun _ =>
    agentLoop_audit_is_dispatch_trail reg chat dryRun MAX_TOOL_ROUNDS _ [] [] rfl⟩

-- ─── theorem: tool-message / assistant-message correspondence (C5) ───

/-- Fallback message for total indexing with `List.getD` (never actually
selected under an in-range index). -/
def sentinelMsg : AIMessage := { role := .system, content := .str "" }

/-- The tool-call ids answered by a message (the `toolCallId`s of its
result pairs; a string-content message answers none). -/
def toolMsgIds (m : AIMessage) : List String :=
  match m.content with
  | .results rs => rs.map (fun r => r.toolCallId)
  | .str _ => []

/-- The tool-call ids carried by an assistant message. -/
def assistantCallIds (m : AIMessage) : List String :=
  (m.toolCalls.getD []).map (fun tc => tc.id)

/-- The round-trip correspondence invariant: every tool-role message
immediately follows an assistant message, and its answered call-id list is
exactly (same elements, same order — hence equal as sets) the id list of
that assistant message tool calls. -/
def toolPairing (msgs : List AIMessage) : Prop :=
  ∀ i, i < msgs.length → (msgs.getD i sentinelMsg).role = Role.tool →
    0 < i ∧ (msgs.getD (i - 1) sentinelMsg).role = Role.assistant ∧
      toolMsgIds (msgs.getD i sentinelMsg) =
        assistantCallIds (msgs.getD (i - 1) sentinelMsg)

/-- Appending an assistant message followed by a tool message whose ids
match preserves the pairing invariant. -/
theorem toolPairing_append_pair (msgs : List AIMessage) (a t : AIMessage)
    (hp : toolPairing msgs) (ha : a.role = Role.assistant)
    (hids : toolMsgIds t = assistantCallIds a) :
    toolPairing (msgs ++ [a, t]) := by
  intro i hi hrole
  simp only [List.length_append, List.length_cons, List.length_nil] at hi
  rcases Nat.lt_trichotomy i msgs.length with hlt | heq | hgt
  · rw [List.getD_append _ _ _ _ hlt] at hrole
    have h := hp i hlt hrole
    have hlt1 : i - 1 < msgs.length := by omega
    refine ⟨h.1, ?_, ?_⟩
    · rw [List.getD_append _ _ _ _ hlt1]
      exact h.2.1
    · rw [List.getD_append _ _ _ _ hlt1, List.getD_append _ _ _ _ hlt]
      exact h.2.2
  · rw [List.getD_append_right _ _ _ _ (Nat.le_of_eq heq.symm)] at hrole
    have h0 : i - msgs.length = 0 := by omega
    rw [h0] at hrole
    simp only [List.getD_cons_zero, ha] at hrole
    exact absurd hrole (by decide)
  · have hi1 : i = msgs.length + 1 := by omega
    have hletool : msgs.length ≤ i := by omega
    have hleasst : msgs.length ≤ i - 1 := by omega
    refine ⟨by omega, ?_, ?_⟩
    · rw [List.getD_append_right _ _ _ _ hleasst]
      have h0 : i - 1 - msgs.length = 0 := by omega
      rw [h0]
      exact ha
    · rw [List.getD_append_right _ _ _ _ hletool,
        List.getD_append_right _ _ _ _ hleasst]
      have h1 : i - msgs.length = 1 := by omega
      have h0 : i - 1 - msgs.length = 0 := by omega
      rw [h1, h0]
      exact hids

/-- The loop preserves the pairing invariant: every round appends exactly
one assistant message and one tool message answering precisely that
assistant message call ids. -/
theorem agentLoop_toolPairing (reg : List ToolDefinition)
    (chat : List AIMessage → AIChatResponse) (dryRun : Bool) :
    ∀ (fuel : Nat) (messages : List AIMessage) (acc : List AuditRecord)
      (disp : List (String × JValue)),
      toolPairing messages →
      toolPairing (agentLoop reg chat dryRun fuel messages acc disp).messages := by
  intro fuel
  induction fuel with
  | zero => intro _ _ _ h; exact h
  | succ n ih =>
    intro messages acc disp h
    simp only [agentLoop]
    split
    · exact h
    · exact h
    · split
      · exact h
      · apply ih
        apply toolPairing_append_pair _ _ _ h rfl
        simp [toolMsgIds, assistantCallIds, List.map_map, Function.comp]

/-- The seeded conversation (a single user message) satisfies the pairing
invariant vacuously. -/
theorem toolPairing_singleton_user (message : String) :
    toolPairing [{ role := Role.user, content := .str message }] := by
  intro i hi hrole
  have h0 : i = 0 := by
    simp only [List.length_singleton] at hi
    omega
  rw [h0] at hrole
  simp at hrole

/-- C5: in the conversation built by `runAgent`, every tool-role message
immediately follows the assistant message whose calls it answers, and its
list of tool-call ids equals (element for element, hence as a set both a
subset and a superset of) the id list of that assistant message tool
calls. -/
theorem runAgent_tool_messages_answer_preceding_assistant
    (reg : List ToolDefinition) (chat : List AIMessage → AIChatResponse)
    (message : String) (dryRun : Bool) (model : String) :
    toolPairing (runAgent reg chat message dryRun model).messages :=
  agentLoop_toolPairing reg chat dryRun MAX_TOOL_ROUNDS _ [] []
    (toolPairing_singleton_user message)

-- ─── theorem: dry-run short-circuit (C6) ───

theorem occursIn_appendL {a b : String} (c : String) (h : occursIn a b) :
    occursIn a (c ++ b) := by
  obtain ⟨p, q, rfl⟩ := h
  exact ⟨c ++ p, q, by simp [String.append_assoc]⟩

/-- One dry-run round: when `dryRun` is on and the response carries tool
calls, the loop breaks immediately after one chat call, dispatching
nothing, appending nothing, and synthesizing the dry-run description. -/
theorem agentLoop_dryRun_step (reg : List ToolDefinition)
    (chat : List AIMessage → AIChatResponse) (fuel : Nat)
    (messages : List AIMessage) (acc : List AuditRecord)
    (disp : List (String × JValue)) (tc0 : AIToolCall) (tcrest : List AIToolCall)
    (h : (chat messages).toolCalls = some (tc0 :: tcrest)) :
    agentLoop reg chat true (fuel + 1) messages acc disp =
      { finalReply := dryRunReply (chat messages).text (tc0 :: tcrest),
        messages := messages, allToolCalls := acc, dispatched := disp,
        chatCalls := 1 } := by
  simp [agentLoop, h]

theorem occursIn_name_dryRunBlock (tc : AIToolCall) :
    occursIn tc.name (dryRunBlock tc) :=
  ⟨"\n┌─ 工具: ",
   "\n" ++ "│  ID:   " ++ tc.id ++ "\n" ++ "│  参数:\n" ++
     strConcat (((JValue.stringify2 tc.input).splitOn "\n").map
       (fun line => "│    " ++ line ++ "\n")) ++
     "└────────────────────\n",
   by simp [dryRunBlock, String.append_assoc]⟩

theorem occursIn_id_dryRunBlock (tc : AIToolCall) :
    occursIn tc.id (dryRunBlock tc) :=
  ⟨"\n┌─ 工具: " ++ tc.name ++ "\n" ++ "│  ID:   ",
   "\n" ++ "│  参数:\n" ++
     strConcat (((JValue.stringify2 tc.input).splitOn "\n").map
       (fun line => "│    " ++ line ++ "\n")) ++
     "└────────────────────\n",
   by simp [dryRunBlock, String.append_assoc]⟩

theorem occursIn_paramLine_dryRunBlock (tc : AIToolCall) (line : String)
    (h : line ∈ (JValue.stringify2 tc.input).splitOn "\n") :
    occursIn ("│    " ++ line ++ "\n") (dryRunBlock tc) := by
  apply occursIn_trans
    (occursIn_strConcat_map (fun l => "│    " ++ l ++ "\n") _ line h)
  exact ⟨"\n┌─ 工具: " ++ tc.name ++ "\n" ++ "│  ID:   " ++ tc.id ++ "\n" ++ "│  参数:\n",
         "└────────────────────\n",
         by simp [dryRunBlock, String.append_assoc]⟩

theorem occursIn_block_dryRunReply (text : Option String) (tcs : List AIToolCall)
    (tc : AIToolCall) (h : tc ∈ tcs) :
    occursIn (dryRunBlock tc) (dryRunReply text tcs) := by
  unfold dryRunReply
  exact occursIn_appendL _ (occursIn_strConcat_map dryRunBlock tcs tc h)

/-- C6: when `dryRun` is on and the model first response carries tool
calls, `runAgent` dispatches nothing (`dispatchToolCall` is never invoked
and the audit list is empty), makes exactly one chat call (terminates
within one round), and its reply is the synthesized dry-run description,
which contains every requested tool call name, id, and pretty-printed
parameters. -/
theorem runAgent_dryRun_short_circuit (reg : List ToolDefinition)
    (chat : List AIMessage → AIChatResponse) (message : String) (model : String)
    (tc0 : AIToolCall) (tcrest : List AIToolCall)
    (h : (chat [{ role := Role.user, content := .str message }]).toolCalls =
      some (tc0 :: tcrest)) :
    (runAgent reg chat message true model).dispatched = [] ∧
    (runAgent reg chat message true model).result.toolCalls = [] ∧
    (runAgent reg chat message true model).chatCalls = 1 ∧
    (runAgent reg chat message true model).result.reply =
      dryRunReply (chat [{ role := Role.user, content := .str message }]).text
        (tc0 :: tcrest) ∧
    ∀ tc ∈ tc0 :: tcrest,
      occursIn tc.name (runAgent reg chat message true model).result.reply ∧
      occursIn tc.id (runAgent reg chat message true model).result.reply ∧
      ∀ line ∈ (JValue.stringify2 tc.input).splitOn "\n",
        occursIn ("│    " ++ line ++ "\n")
          (runAgent reg chat message true model).result.reply := by
  have h10 : MAX_TOOL_ROUNDS = 9 + 1 := rfl
  have hrun : runAgent reg chat message true model =
      ⟨⟨dryRunReply (chat [⟨Role.user, .str message, none⟩]).text (tc0 :: tcrest),
        [], model, none⟩, [⟨Role.user, .str message, none⟩], [], 1⟩ := by
    simp only [runAgent, h10, agentLoop_dryRun_step reg chat 9 _ [] [] tc0 tcrest h]
  rw [hrun]
  refine ⟨rfl, rfl, rfl, rfl, ?_⟩
  intro tc htc
  exact ⟨occursIn_trans (occursIn_name_dryRunBlock tc)
           (occursIn_block_dryRunReply _ _ tc htc),
         occursIn_trans (occursIn_id_dryRunBlock tc)
           (occursIn_block_dryRunReply _ _ tc htc),
         fun line hline =>
           occursIn_trans (occursIn_paramLine_dryRunBlock tc line hline)
             (occursIn_block_dryRunReply _ _ tc htc)⟩

/-- A concrete dry-run model behavior: the first response requests one
`file_read` tool call. -/
def dryRunScenarioChat : List AIMessage → AIChatResponse := fun _ =>
  { text := some "plan",
    toolCalls := some [{ id := "id9", name := "file_read",
                         input := .obj [("filePath", .str "a.txt")] }] }

/-- Witness for C6 at a concrete input: zero dispatches, empty audit list,
one round, and the requested tool name occurs in the reply. -/
theorem runAgent_dryRun_short_circuit_witness :
    (runAgent [] dryRunScenarioChat "hi" true "m").dispatched = [] ∧
    (runAgent [] dryRunScenarioChat "hi" true "m").result.toolCalls = [] ∧
    (runAgent [] dryRunScenarioChat "hi" true "m").chatCalls = 1 ∧
    occursIn "file_read" (runAgent [] dryRunScenarioChat "hi" true "m").result.reply := by
  have h := runAgent_dryRun_short_circuit [] dryRunScenarioChat "hi" "m"
    { id := "id9", name := "file_read", input := .obj [("filePath", .str "a.txt")] }
    [] rfl
  exact ⟨h.1, h.2.1, h.2.2.1,
    (h.2.2.2.2 _ (List.mem_cons_self _ _)).1⟩

-- ─── ai-client: provider factory (C8) ───

/-- The identity of a constructed AI client.  The returned object has a `chat`
closure performs network I/O and is out of scope; only which provider
client was constructed (or that construction threw) is modelled. -/
inductive AIClientTag where
  | anthropic
  | openai
deriving DecidableEq

/-- Embedding of `createAIClient` from the ai-client module: a `switch` on the provider
identifier; unknown identifiers throw a configuration error (modelled as
`Except.error` carrying the thrown message). -/
def createAIClient (provider : String) : Except String AIClientTag :=
  if provider == "anthropic" then .ok .anthropic
  else if provider == "openai" then .ok .openai
  else .error ("Unknown AI provider: " ++ provider ++ ". Supported: anthropic, openai")

/-- Embedding of `runAgent` including its client-construction step (step 2 of the
source), which runs before the loop: an unknown provider aborts the run
with the configuration error before any round executes.  The `chat` oracle
stands for the constructed client `chat` method. -/
def runAgentE (provider : String) (reg : List ToolDefinition)
    (chat : List AIMessage → AIChatResponse) (message : String)
    (dryRun : Bool) (model : String) : Except String RunOutcome :=
  match createAIClient provider with
  | .error e => .error e
  | .ok _ => .ok (runAgent reg chat message dryRun model)

/-- C8: `createAIClient` applied to a provider identifier other than the
supported `"anthropic"` and `"openai"` throws the configuration error, and
the whole run aborts before any round executes; each supported identifier
returns a client without throwing. -/
theorem createAIClient_unknown_provider_fails_fast (provider : String)
    (h1 : provider ≠ "anthropic") (h2 : provider ≠ "openai") :
    createAIClient provider =
      .error ("Unknown AI provider: " ++ provider ++ ". Supported: anthropic, openai") ∧
    (∀ (reg : List ToolDefinition) (chat : List AIMessage → AIChatResponse)
       (message : String) (dryRun : Bool) (model : String),
      runAgentE provider reg chat message dryRun model =
        .error ("Unknown AI provider: " ++ provider ++ ". Supported: anthropic, openai")) ∧
    createAIClient "anthropic" = .ok .anthropic ∧
    createAIClient "openai" = .ok .openai := by
  have hc : createAIClient provider =
      .error ("Unknown AI provider: " ++ provider ++ ". Supported: anthropic, openai") := by
    simp [createAIClient, h1, h2]
  refine ⟨hc, ?_, rfl, rfl⟩
  intro reg chat message dryRun model
  simp [runAgentE, hc]

/-- Witness for C8: the repository own `DEFAULT_PROVIDER`, `"copilot"`,
is not supported by this factory and fails fast. -/
theorem createAIClient_unknown_provider_fails_fast_witness :
    createAIClient "copilot" =
      .error "Unknown AI provider: copilot. Supported: anthropic, openai" :=
  (createAIClient_unknown_provider_fails_fast "copilot"
    (by decide) (by decide)).1

-- ─── ai-client: per-provider message translation (C9) ───

/-- The wire string of a role. -/
def roleString : Role → String
  | .user => "user"
  | .assistant => "assistant"
  | .tool => "tool"
  | .system => "system"

/-- One content block of an Anthropic wire message:
`text`, `tool_use (id, name, input)`, or `tool_result (tool_use_id, content)`. -/
inductive AnthropicBlock where
  | text : String → AnthropicBlock
  | toolUse : String → String → JValue → AnthropicBlock
  | toolResult : String → String → AnthropicBlock

/-- Anthropic wire message content: a bare string or a block list. -/
inductive AnthropicContent where
  | str : String → AnthropicContent
  | blocks : List AnthropicBlock → AnthropicContent

/-- One Anthropic wire message. -/
structure AnthropicMessage where
  role : String
  content : AnthropicContent

/-- The JSON shape of a tool-result array (for the fall-through
`JSON.stringify(m.content)` case). -/
def resultsJson (rs : List ToolResultPair) : JValue :=
  .arr (rs.map (fun r =>
    .obj [("toolCallId", .str r.toolCallId), ("result", .str r.result)]))

/-- Embedding of `typeof m.content === "string" ? m.content : JSON.stringify(m.content)`. -/
def contentString : MessageContent → String
  | .str s => s
  | .results rs => JValue.stringify (resultsJson rs)

/-- The per-message translation inside `createAnthropicClient`:
tool-result messages become a user-role message of `tool_result` blocks;
an assistant message with tool calls becomes a block list — its text first
(when a truthy string), then one `tool_use` block per call, in order. -/
def toAnthropicMessage (m : AIMessage) : AnthropicMessage :=
  match m.role, m.content, m.toolCalls with
  | .tool, .results rs, _ =>
      ⟨"user", .blocks (rs.map (fun tc => .toolResult tc.toolCallId tc.result))⟩
  | .assistant, c, some (tc :: tcs) =>
      ⟨"assistant", .blocks (
        (match c with
         | .str s => if s == "" then [] else [AnthropicBlock.text s]
         | .results _ => []) ++
        (tc :: tcs).map (fun t => .toolUse t.id t.name t.input))⟩
  | role, c, _ => ⟨roleString role, .str (contentString c)⟩

/-- The full Anthropic translation: system-role messages are filtered out
(the system prompt travels in a dedicated field), the rest map in order. -/
def toAnthropicMessages (messages : List AIMessage) : List AnthropicMessage :=
  (messages.filter (fun m => m.role != Role.system)).map toAnthropicMessage

/-- The `function` member of an OpenAI `tool_calls` entry:
`{ name, arguments: JSON.stringify(input) }`. -/
structure OpenAIFunctionCall where
  name : String
  arguments : String

/-- One OpenAI `tool_calls` entry: `{ id, type: "function", function }`. -/
structure OpenAIToolCallEntry where
  id : String
  type : String
  function : OpenAIFunctionCall

/-- One OpenAI wire message: a plain role/content message, a tool-role
reply `{ role: "tool", tool_call_id, content }`, or an assistant message
carrying `tool_calls` (content is the text string, or null when the
canonical content is not a string). -/
inductive OpenAIMessage where
  | plain : String → String → OpenAIMessage
  | toolReply : String → String → OpenAIMessage
  | assistantCalls : Option String → List OpenAIToolCallEntry → OpenAIMessage

/-- The per-message translation inside `createOpenAIClient`: a tool-result
message expands to one tool-role wire message per result pair; an
assistant message with tool calls keeps its text and serializes each call,
in order, into a `tool_calls` entry. -/
def toOpenAIEntries (m : AIMessage) : List OpenAIMessage :=
  match m.role, m.content, m.toolCalls with
  | .tool, .results rs, _ =>
      rs.map (fun tc => .toolReply tc.toolCallId tc.result)
  | .assistant, c, some (tc :: tcs) =>
      [.assistantCalls
        (match c with | .str s => some s | .results _ => none)
        ((tc :: tcs).map (fun t => ⟨t.id, "function", ⟨t.name, JValue.stringify t.input⟩⟩))]
  | role, c, _ => [.plain (roleString role) (contentString c)]

/-- The full OpenAI translation: the system prompt is injected as the first
system-role message, then every canonical message expands in order. -/
def toOpenAIMessages (systemPrompt : String) (messages : List AIMessage) :
    List OpenAIMessage :=
  .plain "system" systemPrompt :: (messages.map toOpenAIEntries).flatten

/-- C9: an assistant message with non-empty text `t` and a non-empty
tool-call list is serialized by both provider translations with the text
preserved and every tool-call record `(id, name, input)` preserved in the
original order: Anthropic emits the text block followed by one `tool_use`
block per call; OpenAI emits one assistant wire message with content `t`
and one `tool_calls` entry per call (input serialized via
`JSON.stringify`). -/
theorem provider_translations_preserve_assistant_turn
    (t : String) (ht : t ≠ "") (tc0 : AIToolCall) (rest : List AIToolCall) :
    toAnthropicMessage ⟨.assistant, .str t, some (tc0 :: rest)⟩ =
      ⟨"assistant", .blocks (.text t ::
        (tc0 :: rest).map (fun c => .toolUse c.id c.name c.input))⟩ ∧
    toOpenAIEntries ⟨.assistant, .str t, some (tc0 :: rest)⟩ =
      [.assistantCalls (some t) ((tc0 :: rest).map
        (fun c => ⟨c.id, "function", ⟨c.name, JValue.stringify c.input⟩⟩))] := by
  constructor
  · simp [toAnthropicMessage, ht]
  · simp [toOpenAIEntries]

/-- Witness for C9 at a concrete assistant turn with prose and two tool
calls. -/
theorem provider_translations_preserve_assistant_turn_witness :
    toAnthropicMessage ⟨.assistant, .str "let me check",
        some [⟨"a1", "exec", .str "ls"⟩, ⟨"a2", "file_read", .null⟩]⟩ =
      ⟨"assistant", .blocks [.text "let me check",
        .toolUse "a1" "exec" (.str "ls"), .toolUse "a2" "file_read" .null]⟩ ∧
    toOpenAIEntries ⟨.assistant, .str "let me check",
        some [⟨"a1", "exec", .str "ls"⟩, ⟨"a2", "file_read", .null⟩]⟩ =
      [.assistantCalls (some "let me check")
        [⟨"a1", "function", ⟨"exec", "\"ls\""⟩⟩,
         ⟨"a2", "function", ⟨"file_read", "null"⟩⟩]] :=
  provider_translations_preserve_assistant_turn "let me check" (by decide)
    ⟨"a1", "exec", .str "ls"⟩ [⟨"a2", "file_read", .null⟩]

end AutoPilot
